import Mathlib

/-
Verification of the VGA-ColorTest program (src/main.cpp).

The program quantizes a dropped 24-bit bitmap to an 8-bit indexed surface
against a fixed 256-entry palette, then darkens the result by a discrete level
and optionally sets an underwater tint bit, redisplaying after each input
event.  The definitions below are a shallow embedding of that code:

  - SDL byte buffers become List Nat; an SDL_Surface becomes a record of
    width, height, bits per pixel, and its pixel byte list.
  - The palette lives in main.hpp, which only declares its 256 concrete RGB
    values; all theorems are therefore stated for an arbitrary palette list
    (of length 256 where the claim needs it), which is strictly more general.
  - findClosestPaletteEntry computes its weighted distance in IEEE-754
    doubles as dr*dr*0.30 + dg*dg*0.59 + db*db*0.11.  Every double is an
    exact rational, and every value of this expression is an integer
    multiple of 2^-56, so the double arithmetic is embedded exactly: each
    value is the Nat numerator of the double over the fixed denominator
    2^56, the constants are the exact doubles nearest 0.30, 0.59 and 0.11,
    and each product and each sum is followed by round-to-nearest, ties to
    even, at 53 significant bits (doubleDistance below).  This reproduces
    the computed double bit for bit (the inputs are exact in double, and
    IEEE requires each operation to round the exact result), so numerator
    comparisons agree with the comparisons the loop performs.  At exact
    mathematical ties the rounded doubles of the two entries can differ, so
    the loop can prefer a later entry; colorDistance (the exact value of
    the mathematical expression, scaled by 100) is kept to state facts
    about such exact ties.
  - uint8_t arithmetic is embedded as Int/Nat arithmetic with an explicit
    mod 256 where the C code can wrap.
  - The global mutable state (render_surface, lit_surface, render_texture,
    darkLevel, underWater, exitRequested) becomes an explicit AppState record,
    and each SDL event handled by handleEvents becomes a step function on it.
    SDL allocation and locking calls are modeled as succeeding; the spec
    places allocation failure out of scope.
-/

set_option maxRecDepth 8000

namespace VGAColorTest

/-- SDL_Color as used by the program: red, green and blue channels, each a
byte.  The alpha channel is never read by the code under verification and is
omitted. -/
structure SDLColor where
  r : Nat
  g : Nat
  b : Nat
  deriving DecidableEq

/-- The exact mathematical value of the weighted squared distance of
main.cpp lines 334-337, scaled by 100 so that it is an integer: the ideal
quantity dr*dr*0.30 + dg*dg*0.59 + db*db*0.11.  The program evaluates this
expression in IEEE doubles (embedded exactly as doubleDistance below);
colorDistance is used only to state facts about exact mathematical ties and
gaps between entries. -/
def colorDistance (p c : SDLColor) : Int :=
  30 * (((p.r : Int) - (c.r : Int)) * ((p.r : Int) - (c.r : Int)))
    + 59 * (((p.g : Int) - (c.g : Int)) * ((p.g : Int) - (c.g : Int)))
    + 11 * (((p.b : Int) - (c.b : Int)) * ((p.b : Int) - (c.b : Int)))

/-- Binary length with explicit fuel, so that it reduces in the kernel: for
n below 2^fuel, bitLenAux fuel n is the number of binary digits of n (0 for
n = 0).  Every number this file rounds is far below 2^80. -/
def bitLenAux : Nat → Nat → Nat
  | 0, _ => 0
  | fuel + 1, n => if n = 0 then 0 else bitLenAux fuel (n / 2) + 1

/-- Number of binary digits of n, valid for n < 2^80. -/
def bitLen (n : Nat) : Nat :=
  bitLenAux 80 n

/-- Round N / 2^k to the nearest integer, ties to even (the IEEE-754 default
rounding applied to a non-negative significand). -/
def roundNearestEven (N k : Nat) : Nat :=
  if k = 0 then N
  else
    let q := N / 2 ^ k
    let r := N % 2 ^ k
    let half := 2 ^ (k - 1)
    if r < half then q
    else if half < r then q + 1
    else if q % 2 = 0 then q else q + 1

/-- Round the non-negative rational N / 2^56 to the nearest IEEE double
(round to nearest, ties to even, 53 significant bits), returned as the
numerator of the result over the same denominator 2^56.  Numbers of at most
53 bits are exactly representable at this scale; the values this file
rounds are far inside the normal range of double, so neither overflow nor
subnormals arise. -/
def roundDouble56 (N : Nat) : Nat :=
  let b := bitLen N
  if b ≤ 53 then N
  else roundNearestEven N (b - 53) * 2 ^ (b - 53)

/-- The numerator over 2^56 of the IEEE double nearest 0.30 (the value the
C literal 0.30 denotes at runtime). -/
def C30n : Nat := 21617278211378380

/-- The numerator over 2^56 of the IEEE double nearest 0.59. -/
def C59n : Nat := 42513980482377480

/-- The numerator over 2^56 of the IEEE double nearest 0.11. -/
def C11n : Nat := 7926335344172073

/-- The exact integer (p_channel - c_channel)^2 computed in int arithmetic
by the source (channels are uint8 promoted to int, so the difference is the
true difference and the square is non-negative). -/
def sqDelta (a b : Nat) : Nat :=
  ((a : Int) - (b : Int)).natAbs * ((a : Int) - (b : Int)).natAbs

/-- The double the expression of main.cpp lines 334-337 computes from the
three squared channel deltas, bit for bit, as its numerator over 2^56: each
squared delta is exact in double, each multiplication by a constant rounds,
and the two left-associated additions round. -/
def doubleWeighted (a b c : Nat) : Nat :=
  roundDouble56
    (roundDouble56 (roundDouble56 (a * C30n) + roundDouble56 (b * C59n))
      + roundDouble56 (c * C11n))

/-- The double distance the source computes for one palette entry against
one pixel.  Comparing these numerators is comparing the doubles. -/
def doubleDistance (p c : SDLColor) : Nat :=
  doubleWeighted (sqDelta p.r c.r) (sqDelta p.g c.g) (sqDelta p.b c.b)

/-- The search loop of findClosestPaletteEntry (main.cpp lines 330-344).
The accumulator mirrors the two locals: closestIndex, and lowestDistance
holding the computed double (as its numerator over 2^56), where none plays
the role of the initial INFINITY (every finite distance compares strictly
below it). -/
def findClosestLoop (color : SDLColor) :
    List SDLColor → Nat → Nat → Option Nat → Nat
  | [], _, closestIndex, _ => closestIndex
  | p :: rest, i, closestIndex, lowestDistance =>
    let distance := doubleDistance p color
    match lowestDistance with
    | none => findClosestLoop color rest (i + 1) i (some distance)
    | some lowest =>
      if distance < lowest then findClosestLoop color rest (i + 1) i (some distance)
      else findClosestLoop color rest (i + 1) closestIndex (some lowest)

/-- findClosestPaletteEntry (main.cpp lines 325-347), parameterized by the
palette.  The source truncates the winning index to uint8_t on return; for
the 256-entry palette of the program the index is at most 255, so the
truncation is the identity and is not written here. -/
def findClosestPaletteEntry (palette : List SDLColor) (color : SDLColor) : Nat :=
  findClosestLoop color palette 0 0 none

/-- The per-pixel body of the darkening loop in updateDarkLevel (main.cpp
lines 378-385).  darkLevel is a C int, the pixel is a uint8_t; the compound
assignment color += 32*darkLevel wraps mod 256 (it never wraps for the
in-range inputs the program produces). -/
def applyDarkness (darkLevel : Int) (color : Nat) : Nat :=
  if darkLevel = 8 ∨ (color : Int) > 255 - 32 * darkLevel then 255
  else (((color : Int) + 32 * darkLevel) % 256).toNat

/-- The per-pixel body of the tint loop in updateUnderwater (main.cpp lines
416-422): set bit 4 when the flag is on, leave the value alone otherwise. -/
def applyUnderwater (underWater : Bool) (color : Nat) : Nat :=
  if underWater then color ||| 0x10 else color

/-- The shape shared by both pixel loops: for i below the computed surface
size, read pixel i (out of range reads yield 0; they do not occur for the
surfaces the program builds) and store f of it. -/
def pixelLoop (f : Nat → Nat) (n : Nat) (buf : List Nat) : List Nat :=
  (List.range n).map fun i => f (buf.getD i 0)

/-- An SDL_Surface as the program uses it: width, height, bits per pixel of
its format, and the raw pixel bytes (3 bytes per pixel for 24-bit surfaces in
memory order blue, green, red; 1 byte per pixel for indexed surfaces). -/
structure Surface where
  w : Nat
  h : Nat
  bpp : Nat
  pixels : List Nat
  deriving DecidableEq

/-- The three distinct SDL_SetError messages convertSurfaceToIndex can leave
behind (its C return value is 1 for all of them). -/
inductive ConvertError where
  | formatMismatch
  | destFormatMismatch
  | dimensionMismatch
  deriving DecidableEq

/-- The pixel-copy loop of convertSurfaceToIndex (main.cpp lines 306-316):
pixel i is rebuilt from the three source bytes at offset 3*i, read in the
order r := byte 2, g := byte 1, b := byte 0, and quantized. -/
def quantizePixels (palette : List SDLColor) (src : List Nat) (count : Nat) :
    List Nat :=
  (List.range count).map fun i =>
    findClosestPaletteEntry palette
      ⟨src.getD (i * 3 + 2) 0, src.getD (i * 3 + 1) 0, src.getD (i * 3) 0⟩

/-- convertSurfaceToIndex (main.cpp lines 260-322).  The checks run in source
order before any pixel is written, so on error no output is produced, which
the Except return captures.  The null-pointer checks and the SDL lock calls
of the source do not apply to the value-level surfaces of this embedding. -/
def convertSurfaceToIndex (palette : List SDLColor) (source dest : Surface) :
    Except ConvertError Surface :=
  let source_count := source.w * source.h
  let dest_count := dest.w * dest.h
  if source.bpp ≠ 24 then .error .formatMismatch
  else if dest.bpp ≠ 8 then .error .destFormatMismatch
  else if source_count ≠ dest_count then .error .dimensionMismatch
  else .ok { dest with pixels := quantizePixels palette source.pixels source_count }

/-- The global mutable state of main.cpp (lines 15-24) that the event loop
reads and writes: the quantized base surface, the lit surface, the texture
currently being presented (modeled by the surface it was created from), the
darkness level, the underwater flag and the quit flag. -/
structure AppState where
  render_surface : Option Surface
  lit_surface : Option Surface
  render_texture : Option Surface
  darkLevel : Int
  underWater : Bool
  exitRequested : Bool
  deriving DecidableEq

/-- SDL_CreateRGBSurfaceWithFormat for INDEX8 (main.cpp lines 214-218):
SDL zero-fills the new pixel memory. -/
def blankIndexSurface (w h : Nat) : Surface :=
  { w := w, h := h, bpp := 8, pixels := List.replicate (w * h) 0 }

/-- renderNewSurface (main.cpp lines 206-256).  Note the source assigns the
global render_surface to the freshly allocated blank surface before running
convertSurfaceToIndex into it, so on a conversion error the old base surface
has already been replaced by the blank one while the texture being presented
is left alone.  Allocation, palette attachment, texture creation and the
renderer calls are modeled as succeeding.  Returns (success, new state). -/
def renderNewSurface (palette : List SDLColor) (surface : Surface)
    (st : AppState) : Bool × AppState :=
  let blank := blankIndexSurface surface.w surface.h
  let st1 := { st with render_surface := some blank }
  match convertSurfaceToIndex palette surface blank with
  | .error _ => (false, st1)
  | .ok converted =>
    (true, { st1 with render_surface := some converted,
                      render_texture := some converted })

/-- loadNewBMP (main.cpp lines 188-199), with the SDL_LoadBMP decode result
supplied as an input: none models a failed decode (return 1, state
untouched), some s a successfully decoded surface handed to
renderNewSurface. -/
def loadNewBMP (palette : List SDLColor) (decoded : Option Surface)
    (st : AppState) : Bool × AppState :=
  match decoded with
  | none => (false, st)
  | some s => renderNewSurface palette s st

/-- updateDarkLevel (main.cpp lines 351-396): does nothing without a base
surface; otherwise frees the old lit surface, allocates a fresh one with the
base dimensions, fills it by darkening every base pixel at the current level,
and rebuilds the presented texture from it. -/
def updateDarkLevel (st : AppState) : AppState :=
  match st.render_surface with
  | none => st
  | some base =>
    let lit : Surface :=
      { w := base.w, h := base.h, bpp := 8
        pixels := pixelLoop (applyDarkness st.darkLevel) (base.w * base.h)
                    base.pixels }
    { st with lit_surface := some lit, render_texture := some lit }

/-- updateUnderwater (main.cpp lines 400-431): does nothing without a base
surface; otherwise mutates the lit surface in place, setting bit 4 of every
pixel when the flag is on, and rebuilds the presented texture from it.  When
the base surface exists but the lit surface does not, the source would
dereference a null pointer; that situation is unreachable from the event
loop, which always runs updateDarkLevel first, and is modeled as a no-op. -/
def updateUnderwater (st : AppState) : AppState :=
  match st.render_surface with
  | none => st
  | some _ =>
    match st.lit_surface with
    | none => st
    | some lit =>
      let lit2 : Surface :=
        { lit with pixels := pixelLoop (applyUnderwater st.underWater)
                               (lit.w * lit.h) lit.pixels }
      { st with lit_surface := some lit2, render_texture := some lit2 }

/-- The events handleEvents (main.cpp lines 112-179) reacts to.  A drop event
carries the decode result of its file; every other key is otherKey. -/
inductive Event where
  | quit
  | dropFile (decoded : Option Surface)
  | keyUp
  | keyDown
  | keySpace
  | otherKey
  deriving DecidableEq

/-- One iteration of the event dispatch in handleEvents: quit sets the exit
flag; a file drop runs loadNewBMP (a failure only pops a message box); the
up and down keys move darkLevel inside [0, 8] and then rerun updateDarkLevel
and updateUnderwater; space toggles underWater and then reruns both as
well. -/
def handleEvent (palette : List SDLColor) (st : AppState) (e : Event) :
    AppState :=
  match e with
  | .quit => { st with exitRequested := true }
  | .dropFile decoded => (loadNewBMP palette decoded st).2
  | .keyUp =>
    let st1 := if st.darkLevel > 0 then { st with darkLevel := st.darkLevel - 1 }
               else st
    updateUnderwater (updateDarkLevel st1)
  | .keyDown =>
    let st1 := if st.darkLevel < 8 then { st with darkLevel := st.darkLevel + 1 }
               else st
    updateUnderwater (updateDarkLevel st1)
  | .keySpace =>
    let st1 := { st with underWater := !st.underWater }
    updateUnderwater (updateDarkLevel st1)
  | .otherKey => st

/-- Processing a whole queue of polled events in order. -/
def runEvents (palette : List SDLColor) (st : AppState) (es : List Event) :
    AppState :=
  es.foldl (handleEvent palette) st

/-- The initial values of the globals (main.cpp lines 15-24): no surfaces,
darkness level 0, underwater off. -/
def initialState : AppState :=
  { render_surface := none, lit_surface := none, render_texture := none,
    darkLevel := 0, underWater := false, exitRequested := false }

/-- When the loop bound is exactly the buffer length, the pixel loop is a
map over the buffer. -/
theorem pixelLoop_eq_map (f : Nat → Nat) (l : List Nat) :
    pixelLoop f l.length l = l.map f := by
  unfold pixelLoop
  apply List.ext_getElem
  · simp
  · intro i h1 h2
    have hi : i < l.length := by simpa using h2
    simp [List.getD_eq_getElem, List.getElem?_eq_getElem hi]

/-- Invariant of the findClosestPaletteEntry search loop, stated against an
arbitrary index-to-distance assignment d: if the accumulator records the best
index b seen so far (strictly best among indices below b, minimal among all
indices below i), then the loop result is the unique first index of minimal
distance over all indices below i plus the remaining entries. -/
theorem findClosestLoop_spec (c : SDLColor) (d : Nat → Nat) (l : List SDLColor) :
    ∀ (i b : Nat) (bd : Nat),
      (∀ j, j < l.length → d (i + j) = doubleDistance (l.getD j ⟨0, 0, 0⟩) c) →
      b < i → d b = bd →
      (∀ j, j < i → bd ≤ d j) →
      (∀ j, j < b → bd < d j) →
      findClosestLoop c l i b (some bd) < i + l.length
      ∧ (∀ j, j < i + l.length → d (findClosestLoop c l i b (some bd)) ≤ d j)
      ∧ (∀ j, j < findClosestLoop c l i b (some bd) →
          d (findClosestLoop c l i b (some bd)) < d j) := by
  induction l with
  | nil =>
    intro i b bd hd hbi hdb hmin hstrict
    simp only [findClosestLoop, List.length_nil, Nat.add_zero]
    refine ⟨hbi, ?_, ?_⟩
    · intro j hj
      rw [hdb]
      exact hmin j hj
    · intro j hj
      rw [hdb]
      exact hstrict j hj
  | cons p rest ih =>
    intro i b bd hd hbi hdb hmin hstrict
    have hdi : d i = doubleDistance p c := by
      have h0 := hd 0 (by simp)
      simpa using h0
    have hlen : i + (p :: rest).length = (i + 1) + rest.length := by
      simp [List.length_cons]
      omega
    have hd2 : ∀ j, j < rest.length →
        d ((i + 1) + j) = doubleDistance (rest.getD j ⟨0, 0, 0⟩) c := by
      intro j hj
      have h1 := hd (j + 1) (by simpa using Nat.succ_lt_succ hj)
      have h2 : i + (j + 1) = (i + 1) + j := by omega
      rw [h2] at h1
      simpa using h1
    simp only [findClosestLoop]
    by_cases hlt : doubleDistance p c < bd
    · rw [if_pos hlt]
      have res := ih (i + 1) i (doubleDistance p c) hd2 (Nat.lt_succ_self i) hdi
        (fun j hj => by
          rcases Nat.lt_succ_iff_lt_or_eq.mp hj with h | h
          · exact le_of_lt (lt_of_lt_of_le hlt (hmin j h))
          · rw [h, hdi])
        (fun j hj => lt_of_lt_of_le hlt (hmin j hj))
      rw [hlen]
      exact res
    · rw [if_neg hlt]
      have hle : bd ≤ doubleDistance p c := not_lt.mp hlt
      have res := ih (i + 1) b bd hd2 (Nat.lt_succ_of_lt hbi) hdb
        (fun j hj => by
          rcases Nat.lt_succ_iff_lt_or_eq.mp hj with h | h
          · exact hmin j h
          · rw [h, hdi]
            exact hle)
        hstrict
      rw [hlen]
      exact res

/-- For every nonempty palette, findClosestPaletteEntry returns an in-range
index whose distance is minimal, and every strictly earlier index has
strictly greater distance (so among equal minima the lowest index wins). -/
theorem findClosestPaletteEntry_spec (palette : List SDLColor) (c : SDLColor)
    (hne : palette ≠ []) :
    findClosestPaletteEntry palette c < palette.length
    ∧ (∀ j, j < palette.length →
        doubleDistance (palette.getD (findClosestPaletteEntry palette c) ⟨0, 0, 0⟩) c
          ≤ doubleDistance (palette.getD j ⟨0, 0, 0⟩) c)
    ∧ (∀ j, j < findClosestPaletteEntry palette c →
        doubleDistance (palette.getD (findClosestPaletteEntry palette c) ⟨0, 0, 0⟩) c
          < doubleDistance (palette.getD j ⟨0, 0, 0⟩) c) := by
  match palette, hne with
  | p :: rest, _ =>
    have hunfold : findClosestPaletteEntry (p :: rest) c
        = findClosestLoop c rest 1 0 (some (doubleDistance p c)) := by
      simp [findClosestPaletteEntry, findClosestLoop]
    have key := findClosestLoop_spec c
      (fun j => doubleDistance ((p :: rest).getD j ⟨0, 0, 0⟩) c) rest 1 0
      (doubleDistance p c)
      (fun j hj => by simp [Nat.add_comm 1 j])
      Nat.zero_lt_one
      (by simp)
      (fun j hj => by
        have hj0 : j = 0 := by omega
        subst hj0
        simp)
      (fun j hj => absurd hj (Nat.not_lt_zero j))
    have hlen2 : (p :: rest).length = 1 + rest.length := by
      simp [Nat.add_comm]
    rw [hunfold, hlen2]
    simpa using key


/-- When L is at least 1, 2^L splits off one factor of 2. -/
theorem two_pow_pred (L : Nat) (h : 1 ≤ L) : 2 ^ L = 2 * 2 ^ (L - 1) := by
  obtain ⟨m, rfl⟩ : ∃ m, L = m + 1 := ⟨L - 1, by omega⟩
  simp only [Nat.add_sub_cancel, Nat.pow_succ]
  ring

/-- bitLenAux of 0 is 0 at every fuel. -/
theorem bitLenAux_zero (fuel : Nat) : bitLenAux fuel 0 = 0 := by
  cases fuel <;> rfl

/-- With enough fuel, bitLenAux computes the binary length: a nonzero n lies
in the interval of its digit count. -/
theorem bitLenAux_spec :
    ∀ (fuel n : Nat), n < 2 ^ fuel → n ≠ 0 →
      1 ≤ bitLenAux fuel n
      ∧ 2 ^ (bitLenAux fuel n - 1) ≤ n
      ∧ n < 2 ^ bitLenAux fuel n
  | 0, n, hlt, hne => absurd (Nat.lt_one_iff.mp hlt) hne
  | fuel + 1, n, hlt, hne => by
    simp only [bitLenAux, if_neg hne]
    by_cases h2 : n / 2 = 0
    · have hn1 : n = 1 := by omega
      subst hn1
      rw [h2, bitLenAux_zero]
      exact ⟨by omega, by simp, by simp⟩
    · have hfuel : n / 2 < 2 ^ fuel := by
        have hp := two_pow_pred (fuel + 1) (by omega)
        simp only [Nat.add_sub_cancel] at hp
        omega
      obtain ⟨ih1, ih2, ih3⟩ := bitLenAux_spec fuel (n / 2) hfuel h2
      refine ⟨by omega, ?_, ?_⟩
      · have hL1 : bitLenAux fuel (n / 2) + 1 - 1 = bitLenAux fuel (n / 2) := by
          omega
        rw [hL1]
        have hpow := two_pow_pred (bitLenAux fuel (n / 2)) ih1
        omega
      · have hpow := two_pow_pred (bitLenAux fuel (n / 2) + 1) (by omega)
        simp only [Nat.add_sub_cancel] at hpow
        omega

/-- bitLen is the binary length for numbers below 2^80. -/
theorem bitLen_spec (n : Nat) (h : n < 2 ^ 80) (hne : n ≠ 0) :
    1 ≤ bitLen n ∧ 2 ^ (bitLen n - 1) ≤ n ∧ n < 2 ^ bitLen n :=
  bitLenAux_spec 80 n h hne

/-- Rounding N / 2^k to the nearest integer moves it by at most half a unit
(2^(k-1) at scale 2^k). -/
theorem roundNearestEven_err (N k : Nat) (hk : 1 ≤ k) :
    roundNearestEven N k * 2 ^ k ≤ N + 2 ^ (k - 1)
    ∧ N ≤ roundNearestEven N k * 2 ^ k + 2 ^ (k - 1) := by
  have hdm : N / 2 ^ k * 2 ^ k + N % 2 ^ k = N := by
    rw [Nat.mul_comm]
    exact Nat.div_add_mod N (2 ^ k)
  have hmlt : N % 2 ^ k < 2 ^ k := Nat.mod_lt _ (by positivity)
  have hpow := two_pow_pred k hk
  unfold roundNearestEven
  rw [if_neg (by omega : ¬ k = 0)]
  dsimp only
  split
  · omega
  · split
    · simp only [Nat.add_mul, Nat.one_mul]
      omega
    · split
      · omega
      · simp only [Nat.add_mul, Nat.one_mul]
        omega

/-- Rounding to 53 significant bits changes a value by at most one part in
2^53: half an ulp is 2^(b-54) and the value is at least 2^(b-1). -/
theorem roundDouble56_err (N : Nat) (h : N < 2 ^ 80) :
    2 ^ 53 * roundDouble56 N ≤ 2 ^ 53 * N + N
    ∧ 2 ^ 53 * N ≤ 2 ^ 53 * roundDouble56 N + N := by
  unfold roundDouble56
  dsimp only
  split
  · omega
  · next hb =>
    have hne : N ≠ 0 := by
      intro h0
      subst h0
      exact hb (by decide)
    obtain ⟨h1, h2, h3⟩ := bitLen_spec N h hne
    have hs : 1 ≤ bitLen N - 53 := by omega
    obtain ⟨hr1, hr2⟩ := roundNearestEven_err N (bitLen N - 53) hs
    have hpow : 2 ^ (bitLen N - 1) = 2 ^ 53 * 2 ^ (bitLen N - 53 - 1) := by
      rw [← Nat.pow_add]
      congr 1
      omega
    have k1 : 2 ^ 53 * (roundNearestEven N (bitLen N - 53) * 2 ^ (bitLen N - 53))
        ≤ 2 ^ 53 * (N + 2 ^ (bitLen N - 53 - 1)) :=
      Nat.mul_le_mul_left _ hr1
    have k2 : 2 ^ 53 * N
        ≤ 2 ^ 53 * (roundNearestEven N (bitLen N - 53) * 2 ^ (bitLen N - 53)
            + 2 ^ (bitLen N - 53 - 1)) :=
      Nat.mul_le_mul_left _ hr2
    have k3 : 2 ^ 53 * (N + 2 ^ (bitLen N - 53 - 1))
        = 2 ^ 53 * N + 2 ^ (bitLen N - 1) := by
      rw [Nat.mul_add, hpow]
    have k4 : 2 ^ 53 * (roundNearestEven N (bitLen N - 53) * 2 ^ (bitLen N - 53)
          + 2 ^ (bitLen N - 53 - 1))
        = 2 ^ 53 * (roundNearestEven N (bitLen N - 53) * 2 ^ (bitLen N - 53))
          + 2 ^ (bitLen N - 1) := by
      rw [Nat.mul_add, hpow]
    omega

/-- A strict gap of at least one unit in the exact 100-scaled distance (about
0.01 in real terms) dwarfs every rounding error in the double evaluation
(about 2^-33 in real terms for inputs below 2^13), so the computed doubles
preserve every strict comparison of exact values; only exact ties are at the
mercy of rounding. -/
theorem doubleWeighted_strict_mono (a b c a2 b2 c2 : Nat)
    (ha : a ≤ 65025) (hb : b ≤ 65025) (hc : c ≤ 65025)
    (ha2 : a2 ≤ 65025) (hb2 : b2 ≤ 65025) (hc2 : c2 ≤ 65025)
    (hlt : 30 * a + 59 * b + 11 * c < 30 * a2 + 59 * b2 + 11 * c2) :
    doubleWeighted a b c < doubleWeighted a2 b2 c2 := by
  unfold doubleWeighted
  simp only [C30n, C59n, C11n]
  have hA := roundDouble56_err (a * 21617278211378380) (by omega)
  have hB := roundDouble56_err (b * 42513980482377480) (by omega)
  have hC := roundDouble56_err (c * 7926335344172073) (by omega)
  have hS := roundDouble56_err
      (roundDouble56 (a * 21617278211378380)
        + roundDouble56 (b * 42513980482377480)) (by omega)
  have hT := roundDouble56_err
      (roundDouble56 (roundDouble56 (a * 21617278211378380)
          + roundDouble56 (b * 42513980482377480))
        + roundDouble56 (c * 7926335344172073)) (by omega)
  have hA2 := roundDouble56_err (a2 * 21617278211378380) (by omega)
  have hB2 := roundDouble56_err (b2 * 42513980482377480) (by omega)
  have hC2 := roundDouble56_err (c2 * 7926335344172073) (by omega)
  have hS2 := roundDouble56_err
      (roundDouble56 (a2 * 21617278211378380)
        + roundDouble56 (b2 * 42513980482377480)) (by omega)
  have hT2 := roundDouble56_err
      (roundDouble56 (roundDouble56 (a2 * 21617278211378380)
          + roundDouble56 (b2 * 42513980482377480))
        + roundDouble56 (c2 * 7926335344172073)) (by omega)
  omega

/-- The exact 100-scaled distance is the weighted sum of the squared
channel deltas. -/
theorem colorDistance_eq_sq (p c : SDLColor) :
    colorDistance p c
      = ((30 * sqDelta p.r c.r + 59 * sqDelta p.g c.g
          + 11 * sqDelta p.b c.b : Nat) : Int) := by
  unfold colorDistance sqDelta
  push_cast [Int.natAbs_mul_self']
  simp only [abs_mul_abs_self]

/-- Squared deltas of byte channels are at most 255^2. -/
theorem sqDelta_le (a b : Nat) (ha : a ≤ 255) (hb : b ≤ 255) :
    sqDelta a b ≤ 65025 := by
  unfold sqDelta
  have habs : ((a : Int) - (b : Int)).natAbs ≤ 255 := by omega
  calc ((a : Int) - (b : Int)).natAbs * ((a : Int) - (b : Int)).natAbs
      ≤ 255 * 255 := Nat.mul_le_mul habs habs
    _ = 65025 := by norm_num

/-- For byte colors, a strictly smaller exact weighted distance gives a
strictly smaller computed double distance. -/
theorem doubleDistance_lt_of_colorDistance_lt (p q c : SDLColor)
    (hp : p.r ≤ 255 ∧ p.g ≤ 255 ∧ p.b ≤ 255)
    (hq : q.r ≤ 255 ∧ q.g ≤ 255 ∧ q.b ≤ 255)
    (hc : c.r ≤ 255 ∧ c.g ≤ 255 ∧ c.b ≤ 255)
    (hlt : colorDistance p c < colorDistance q c) :
    doubleDistance p c < doubleDistance q c := by
  rw [colorDistance_eq_sq p c, colorDistance_eq_sq q c, Nat.cast_lt] at hlt
  unfold doubleDistance
  exact doubleWeighted_strict_mono _ _ _ _ _ _
    (sqDelta_le _ _ hp.1 hc.1) (sqDelta_le _ _ hp.2.1 hc.2.1)
    (sqDelta_le _ _ hp.2.2 hc.2.2)
    (sqDelta_le _ _ hq.1 hc.1) (sqDelta_le _ _ hq.2.1 hc.2.1)
    (sqDelta_le _ _ hq.2.2 hc.2.2) hlt

/-- Claim C1 amended: for every pixel and every 256-entry palette of byte
colors, the quantizer returns the first index minimizing the distance the
program actually computes (the IEEE-double evaluation of the weighted
metric): the returned index is below 256, its computed double distance is
minimal over all 256 entries, every strictly earlier index has a strictly
greater computed double distance (the first entry achieving the computed
minimum wins), and no entry has a strictly lower exact mathematical weighted
distance than the returned entry, because exact strict gaps survive the
rounding; only entries whose exact distances tie exactly can be ordered
either way by the rounding, so the lowest-index tie-break holds for computed
doubles but not for exact mathematical distances. -/
theorem quantizer_first_nearest (palette : List SDLColor) (c : SDLColor)
    (h : palette.length = 256)
    (hpal : ∀ p ∈ palette, p.r ≤ 255 ∧ p.g ≤ 255 ∧ p.b ≤ 255)
    (hc : c.r ≤ 255 ∧ c.g ≤ 255 ∧ c.b ≤ 255) :
    findClosestPaletteEntry palette c < 256
    ∧ (∀ j, j < 256 →
        doubleDistance (palette.getD (findClosestPaletteEntry palette c) ⟨0, 0, 0⟩) c
          ≤ doubleDistance (palette.getD j ⟨0, 0, 0⟩) c)
    ∧ (∀ j, j < findClosestPaletteEntry palette c →
        doubleDistance (palette.getD (findClosestPaletteEntry palette c) ⟨0, 0, 0⟩) c
          < doubleDistance (palette.getD j ⟨0, 0, 0⟩) c)
    ∧ (∀ j, j < 256 →
        ¬ colorDistance (palette.getD j ⟨0, 0, 0⟩) c
            < colorDistance (palette.getD (findClosestPaletteEntry palette c) ⟨0, 0, 0⟩) c) := by
  have hne : palette ≠ [] := by
    intro hnil
    rw [hnil] at h
    simp at h
  have key := findClosestPaletteEntry_spec palette c hne
  rw [h] at key
  have hk := key.1
  refine ⟨key.1, key.2.1, key.2.2, ?_⟩
  intro j hj hcd
  have hmem : ∀ i, i < palette.length → palette.getD i ⟨0, 0, 0⟩ ∈ palette := by
    intro i hi
    rw [List.getD_eq_getElem _ _ hi]
    exact List.getElem_mem _
  have hdd := doubleDistance_lt_of_colorDistance_lt _ _ _
    (hpal _ (hmem j (by omega))) (hpal _ (hmem _ (by omega))) hc hcd
  exact absurd hdd (not_lt.mpr (key.2.1 j hj))

theorem quantizer_first_nearest_witness :
    (List.replicate 256 (⟨0, 0, 0⟩ : SDLColor)).length = 256
    ∧ (∀ p ∈ List.replicate 256 (⟨0, 0, 0⟩ : SDLColor),
        p.r ≤ 255 ∧ p.g ≤ 255 ∧ p.b ≤ 255)
    ∧ ((⟨10, 10, 10⟩ : SDLColor).r ≤ 255 ∧ (⟨10, 10, 10⟩ : SDLColor).g ≤ 255
        ∧ (⟨10, 10, 10⟩ : SDLColor).b ≤ 255)
    ∧ (findClosestPaletteEntry (List.replicate 256 ⟨0, 0, 0⟩) ⟨10, 10, 10⟩ < 256
      ∧ (∀ j, j < 256 →
          doubleDistance ((List.replicate 256 ⟨0, 0, 0⟩).getD
              (findClosestPaletteEntry (List.replicate 256 ⟨0, 0, 0⟩) ⟨10, 10, 10⟩)
              ⟨0, 0, 0⟩) ⟨10, 10, 10⟩
            ≤ doubleDistance ((List.replicate 256 ⟨0, 0, 0⟩).getD j ⟨0, 0, 0⟩)
                ⟨10, 10, 10⟩)
      ∧ (∀ j, j < findClosestPaletteEntry (List.replicate 256 ⟨0, 0, 0⟩) ⟨10, 10, 10⟩ →
          doubleDistance ((List.replicate 256 ⟨0, 0, 0⟩).getD
              (findClosestPaletteEntry (List.replicate 256 ⟨0, 0, 0⟩) ⟨10, 10, 10⟩)
              ⟨0, 0, 0⟩) ⟨10, 10, 10⟩
            < doubleDistance ((List.replicate 256 ⟨0, 0, 0⟩).getD j ⟨0, 0, 0⟩)
                ⟨10, 10, 10⟩)
      ∧ (∀ j, j < 256 →
          ¬ colorDistance ((List.replicate 256 ⟨0, 0, 0⟩).getD j ⟨0, 0, 0⟩) ⟨10, 10, 10⟩
              < colorDistance ((List.replicate 256 ⟨0, 0, 0⟩).getD
                  (findClosestPaletteEntry (List.replicate 256 ⟨0, 0, 0⟩) ⟨10, 10, 10⟩)
                  ⟨0, 0, 0⟩) ⟨10, 10, 10⟩)) :=
  ⟨List.length_replicate 256 ⟨0, 0, 0⟩, by decide, by decide,
    quantizer_first_nearest (List.replicate 256 ⟨0, 0, 0⟩) ⟨10, 10, 10⟩
      (List.length_replicate 256 ⟨0, 0, 0⟩) (by decide) (by decide)⟩

/-- A 256-entry palette that exhibits an exact tie broken by double
rounding: against the pixel (0,0,0), entries 0 and 1 with squared deltas
(144, 0, 841) and (100, 0, 961) both have exact weighted distance 135.71,
but the computed doubles are 135.71 and 135.70999999999998. -/
def tiePalette : List SDLColor :=
  ⟨12, 0, 29⟩ :: ⟨10, 0, 31⟩ :: List.replicate 254 ⟨255, 255, 255⟩

/-- Claim C1 counterexample: in this 256-entry palette the first two entries
have exactly equal mathematical weighted distance to the pixel (0,0,0), and
entry 0 achieves the minimum exact distance over all 256 entries, yet the
quantizer returns index 1: at the exact tie the double computation of the
later entry is strictly smaller, so the loop replaces the earlier entry and
the lowest-index tie-break stated by the claim does not hold of the
program. -/
theorem quantizer_tie_cex :
    tiePalette.length = 256
    ∧ colorDistance (tiePalette.getD 0 ⟨0, 0, 0⟩) ⟨0, 0, 0⟩
        = colorDistance (tiePalette.getD 1 ⟨0, 0, 0⟩) ⟨0, 0, 0⟩
    ∧ (∀ j, j < 256 →
        colorDistance (tiePalette.getD 0 ⟨0, 0, 0⟩) ⟨0, 0, 0⟩
          ≤ colorDistance (tiePalette.getD j ⟨0, 0, 0⟩) ⟨0, 0, 0⟩)
    ∧ findClosestPaletteEntry tiePalette ⟨0, 0, 0⟩ = 1 := by
  refine ⟨by decide, by decide, by decide, by decide⟩

/-- Claim C2: for every index value v in [0,255] and darkness level in [0,8],
applyDarkness outputs 255 when the level is 8 or v is greater than
255 - 32*level, and outputs v + 32*level otherwise; and the base buffer
[5, 250, 0] at level 2 maps to [69, 255, 64]. -/
theorem applyDarkness_formula :
    (∀ (v level : Nat), v ≤ 255 → level ≤ 8 →
      applyDarkness (level : Int) v
        = if level = 8 ∨ v > 255 - 32 * level then 255 else v + 32 * level)
    ∧ pixelLoop (applyDarkness 2) 3 [5, 250, 0] = [69, 255, 64] := by
  constructor
  · intro v level hv hl
    unfold applyDarkness
    split <;> split <;> omega
  · decide

theorem applyDarkness_formula_witness :
    (5 : Nat) ≤ 255 ∧ (2 : Nat) ≤ 8 ∧
      applyDarkness ((2 : Nat) : Int) 5
        = if (2 : Nat) = 8 ∨ (5 : Nat) > 255 - 32 * 2 then 255 else 5 + 32 * 2 :=
  ⟨by decide, by decide, applyDarkness_formula.1 5 2 (by decide) (by decide)⟩

/-- Claim C3: running the underwater loop over a whole buffer sets bit 4 of
every value when the flag is true, is the identity on the buffer when the
flag is false, and applying it twice with true equals applying it once. -/
theorem applyUnderwater_buffer_spec (buf : List Nat) :
    pixelLoop (applyUnderwater true) buf.length buf
        = buf.map (fun v => v ||| 0x10)
    ∧ pixelLoop (applyUnderwater false) buf.length buf = buf
    ∧ pixelLoop (applyUnderwater true)
          (pixelLoop (applyUnderwater true) buf.length buf).length
          (pixelLoop (applyUnderwater true) buf.length buf)
        = pixelLoop (applyUnderwater true) buf.length buf := by
  have htrue : pixelLoop (applyUnderwater true) buf.length buf
      = buf.map (fun v => v ||| 0x10) := by
    rw [pixelLoop_eq_map]
    simp [applyUnderwater]
  refine ⟨htrue, ?_, ?_⟩
  · rw [pixelLoop_eq_map]
    have hfalse : applyUnderwater false = fun v => v := by
      funext v
      simp [applyUnderwater]
    rw [hfalse]
    simp
  · rw [htrue, pixelLoop_eq_map]
    simp [applyUnderwater, Nat.or_assoc]

/-- Claim C8: for a fixed index value in [0,255], raising the darkness level
within [0,8] never lowers the darkened result. -/
theorem applyDarkness_monotone_level (v : Nat) (a b : Int)
    (hv : v ≤ 255) (ha : 0 ≤ a) (hab : a ≤ b) (hb : b ≤ 8) :
    applyDarkness a v ≤ applyDarkness b v := by
  unfold applyDarkness
  split <;> split <;> omega

theorem applyDarkness_monotone_level_witness :
    (3 : Nat) ≤ 255 ∧ (0 : Int) ≤ 1 ∧ (1 : Int) ≤ 2 ∧ (2 : Int) ≤ 8 ∧
      applyDarkness 1 3 ≤ applyDarkness 2 3 :=
  ⟨by decide, by decide, by decide, by decide,
    applyDarkness_monotone_level 3 1 2 (by decide) (by decide) (by decide)
      (by decide)⟩

/-- Claim C10: for every index value in [0,255] and darkness level in [0,8],
darkening never maps an index to a smaller index. -/
theorem applyDarkness_ge_input (v : Nat) (level : Int)
    (hv : v ≤ 255) (h0 : 0 ≤ level) (h8 : level ≤ 8) :
    v ≤ applyDarkness level v := by
  unfold applyDarkness
  split <;> omega

theorem applyDarkness_ge_input_witness :
    (200 : Nat) ≤ 255 ∧ (0 : Int) ≤ 1 ∧ (1 : Int) ≤ 8 ∧
      (200 : Nat) ≤ applyDarkness 1 200 :=
  ⟨by decide, by decide, by decide,
    applyDarkness_ge_input 200 1 (by decide) (by decide) (by decide)⟩

theorem updateDarkLevel_darkLevel (st : AppState) :
    (updateDarkLevel st).darkLevel = st.darkLevel := by
  unfold updateDarkLevel
  split <;> rfl

theorem updateUnderwater_darkLevel (st : AppState) :
    (updateUnderwater st).darkLevel = st.darkLevel := by
  unfold updateUnderwater
  split
  · rfl
  · split <;> rfl

theorem loadNewBMP_darkLevel (palette : List SDLColor) (d : Option Surface)
    (st : AppState) : ((loadNewBMP palette d st).2).darkLevel = st.darkLevel := by
  unfold loadNewBMP renderNewSurface
  rcases d with _ | s
  · rfl
  · simp only
    split <;> rfl

theorem handleEvent_darkLevel_bounds (palette : List SDLColor) (st : AppState)
    (e : Event) (h0 : 0 ≤ st.darkLevel) (h8 : st.darkLevel ≤ 8) :
    0 ≤ (handleEvent palette st e).darkLevel
    ∧ (handleEvent palette st e).darkLevel ≤ 8 := by
  cases e with
  | quit => exact ⟨h0, h8⟩
  | dropFile d =>
    simp only [handleEvent, loadNewBMP_darkLevel]
    exact ⟨h0, h8⟩
  | keyUp =>
    simp only [handleEvent, updateUnderwater_darkLevel, updateDarkLevel_darkLevel]
    split
    · dsimp only
      omega
    · omega
  | keyDown =>
    simp only [handleEvent, updateUnderwater_darkLevel, updateDarkLevel_darkLevel]
    split
    · dsimp only
      omega
    · omega
  | keySpace =>
    simp only [handleEvent, updateUnderwater_darkLevel, updateDarkLevel_darkLevel]
    exact ⟨h0, h8⟩
  | otherKey => exact ⟨h0, h8⟩

theorem runEvents_darkLevel_bounds (palette : List SDLColor) (es : List Event) :
    ∀ st : AppState, 0 ≤ st.darkLevel → st.darkLevel ≤ 8 →
      0 ≤ (runEvents palette st es).darkLevel
      ∧ (runEvents palette st es).darkLevel ≤ 8 := by
  induction es with
  | nil =>
    intro st h0 h8
    exact ⟨h0, h8⟩
  | cons e rest ih =>
    intro st h0 h8
    have hstep := handleEvent_darkLevel_bounds palette st e h0 h8
    simpa [runEvents] using ih (handleEvent palette st e) hstep.1 hstep.2

/-- Claim C9: starting from the initial state, any sequence of input events
keeps the darkness level inside [0, 8]; moreover a decrement (up key) at
level 0 and an increment (down key) at level 8 leave the level unchanged. -/
theorem darkLevel_invariant :
    (∀ (palette : List SDLColor) (es : List Event),
      0 ≤ (runEvents palette initialState es).darkLevel
      ∧ (runEvents palette initialState es).darkLevel ≤ 8)
    ∧ (∀ (palette : List SDLColor) (st : AppState), st.darkLevel = 0 →
        (handleEvent palette st Event.keyUp).darkLevel = 0)
    ∧ (∀ (palette : List SDLColor) (st : AppState), st.darkLevel = 8 →
        (handleEvent palette st Event.keyDown).darkLevel = 8) := by
  refine ⟨?_, ?_, ?_⟩
  · intro palette es
    exact runEvents_darkLevel_bounds palette es initialState (by decide) (by decide)
  · intro palette st h
    simp only [handleEvent, updateUnderwater_darkLevel, updateDarkLevel_darkLevel]
    rw [if_neg (by omega)]
    exact h
  · intro palette st h
    simp only [handleEvent, updateUnderwater_darkLevel, updateDarkLevel_darkLevel]
    rw [if_neg (by omega)]
    exact h

theorem darkLevel_invariant_witness :
    initialState.darkLevel = 0
    ∧ (handleEvent [] initialState Event.keyUp).darkLevel = 0 :=
  ⟨rfl, darkLevel_invariant.2.1 [] initialState rfl⟩

def stC4 : AppState :=
  { render_surface := some ⟨1, 1, 8, [7]⟩, lit_surface := some ⟨1, 1, 8, [7]⟩,
    render_texture := some ⟨1, 1, 8, [7]⟩, darkLevel := 3, underWater := true,
    exitRequested := false }

def badSurface : Surface := ⟨1, 1, 32, [0, 0, 0, 0]⟩

/-- Claim C4 counterexample: dropping a decoded 32-bit surface fails the
load, yet the active base buffer has been replaced (by the fresh blank
surface) instead of being left unchanged as the claim states. -/
theorem load_failure_mutates_base_cex :
    (loadNewBMP [] (some badSurface) stC4).1 = false
    ∧ (handleEvent [] stC4 (Event.dropFile (some badSurface))).render_surface
        ≠ stC4.render_surface := by
  decide

/-- Claim C4 amended: a failed decode leaves the whole state unchanged, and
a failed conversion (source not 24-bit) leaves the displayed texture, the lit
buffer, the darkness level and the underwater flag unchanged, but replaces
the active base buffer with the freshly allocated blank indexed surface. -/
theorem load_failure_preserves_display (palette : List SDLColor) (st : AppState)
    (d : Option Surface) :
    (d = none → (loadNewBMP palette d st).2 = st)
    ∧ (∀ s, d = some s → s.bpp ≠ 24 →
        (loadNewBMP palette d st).1 = false
        ∧ ((loadNewBMP palette d st).2).render_texture = st.render_texture
        ∧ ((loadNewBMP palette d st).2).lit_surface = st.lit_surface
        ∧ ((loadNewBMP palette d st).2).darkLevel = st.darkLevel
        ∧ ((loadNewBMP palette d st).2).underWater = st.underWater
        ∧ ((loadNewBMP palette d st).2).render_surface
            = some (blankIndexSurface s.w s.h)) := by
  constructor
  · intro h
    subst h
    rfl
  · intro s hd hbpp
    subst hd
    simp only [loadNewBMP, renderNewSurface, convertSurfaceToIndex]
    rw [if_pos hbpp]
    exact ⟨rfl, rfl, rfl, rfl, rfl, rfl⟩

theorem load_failure_preserves_display_witness :
    badSurface.bpp ≠ 24
    ∧ ((loadNewBMP [] (some badSurface) stC4).1 = false
      ∧ ((loadNewBMP [] (some badSurface) stC4).2).render_texture = stC4.render_texture
      ∧ ((loadNewBMP [] (some badSurface) stC4).2).lit_surface = stC4.lit_surface
      ∧ ((loadNewBMP [] (some badSurface) stC4).2).darkLevel = stC4.darkLevel
      ∧ ((loadNewBMP [] (some badSurface) stC4).2).underWater = stC4.underWater
      ∧ ((loadNewBMP [] (some badSurface) stC4).2).render_surface
          = some (blankIndexSurface badSurface.w badSurface.h)) :=
  ⟨by decide,
    (load_failure_preserves_display [] stC4 (some badSurface)).2 badSurface rfl
      (by decide)⟩

def stC5 : AppState :=
  { render_surface := some ⟨1, 1, 8, [0]⟩, lit_surface := some ⟨1, 1, 8, [16]⟩,
    render_texture := some ⟨1, 1, 8, [16]⟩, darkLevel := 0, underWater := true,
    exitRequested := false }

/-- Claim C5 counterexample: toggling the underwater flag does not merely
re-run the tint on the current lit buffer: starting from lit buffer [16] at
level 0 with the flag on, the space key yields lit buffer [0], not the [16]
that a tint-only re-run (here the identity, flag now off) would give, so the
previously set bit 4 is not left untouched. -/
theorem toggle_reruns_brightness_cex :
    (handleEvent [] stC5 Event.keySpace).lit_surface
        ≠ (updateUnderwater { stC5 with underWater := !stC5.underWater }).lit_surface
    ∧ (handleEvent [] stC5 Event.keySpace).lit_surface ≠ stC5.lit_surface := by
  decide

/-- Claim C5 amended: a space key toggles the flag and then re-runs BOTH
transforms: the lit buffer is recomputed from the base buffer at the current
darkness level and the tint is applied to that, and the result is displayed. -/
theorem toggle_reruns_both_transforms (palette : List SDLColor) (st : AppState)
    (base : Surface) (hb : st.render_surface = some base) :
    (handleEvent palette st Event.keySpace).lit_surface
        = some { w := base.w, h := base.h, bpp := 8,
                 pixels := pixelLoop (applyUnderwater (!st.underWater))
                             (base.w * base.h)
                             (pixelLoop (applyDarkness st.darkLevel)
                               (base.w * base.h) base.pixels) }
    ∧ (handleEvent palette st Event.keySpace).render_texture
        = (handleEvent palette st Event.keySpace).lit_surface
    ∧ (handleEvent palette st Event.keySpace).underWater = !st.underWater
    ∧ (handleEvent palette st Event.keySpace).darkLevel = st.darkLevel := by
  simp only [handleEvent, updateDarkLevel, updateUnderwater, hb]
  exact ⟨trivial, trivial, trivial, trivial⟩

theorem toggle_reruns_both_transforms_witness :
    stC5.render_surface = some (⟨1, 1, 8, [0]⟩ : Surface)
    ∧ ((handleEvent [] stC5 Event.keySpace).lit_surface
        = some { w := 1, h := 1, bpp := 8,
                 pixels := pixelLoop (applyUnderwater (!stC5.underWater)) (1 * 1)
                             (pixelLoop (applyDarkness stC5.darkLevel) (1 * 1) [0]) }
      ∧ (handleEvent [] stC5 Event.keySpace).render_texture
          = (handleEvent [] stC5 Event.keySpace).lit_surface
      ∧ (handleEvent [] stC5 Event.keySpace).underWater = !stC5.underWater
      ∧ (handleEvent [] stC5 Event.keySpace).darkLevel = stC5.darkLevel) :=
  ⟨rfl, toggle_reruns_both_transforms [] stC5 ⟨1, 1, 8, [0]⟩ rfl⟩

def stC6 : AppState :=
  { render_surface := some ⟨1, 1, 8, [0]⟩, lit_surface := some ⟨1, 1, 8, [0]⟩,
    render_texture := some ⟨1, 1, 8, [0]⟩, darkLevel := 2, underWater := true,
    exitRequested := false }

def palC6 : List SDLColor := [⟨0, 0, 0⟩]

def goodImage : Surface := ⟨1, 1, 24, [0, 0, 0]⟩

/-- Claim C6 counterexample: after a successful drop at darkness level 2
with the underwater flag on, the darkness level and flag are preserved, but
the displayed texture holds the raw quantized pixels, not the
quantize-darken-tint composition the claim states. -/
theorem drop_displays_unlit_cex :
    (loadNewBMP palC6 (some goodImage) stC6).1 = true
    ∧ (handleEvent palC6 stC6 (Event.dropFile (some goodImage))).darkLevel = 2
    ∧ (handleEvent palC6 stC6 (Event.dropFile (some goodImage))).underWater = true
    ∧ Option.map Surface.pixels
        (handleEvent palC6 stC6 (Event.dropFile (some goodImage))).render_texture
      ≠ some (pixelLoop (applyUnderwater true) 1
                (pixelLoop (applyDarkness 2) 1
                  (quantizePixels palC6 goodImage.pixels 1))) := by
  decide

/-- Claim C6 amended: a successful drop preserves the darkness level, the
underwater flag and the lit buffer, replaces the base buffer with the
quantized image and displays that base buffer directly; darkening and
tinting at the current settings happen only on the next key event. -/
theorem drop_preserves_settings_displays_quantized (palette : List SDLColor)
    (st : AppState) (s : Surface) (h24 : s.bpp = 24) :
    (loadNewBMP palette (some s) st).1 = true
    ∧ (handleEvent palette st (Event.dropFile (some s))).darkLevel = st.darkLevel
    ∧ (handleEvent palette st (Event.dropFile (some s))).underWater = st.underWater
    ∧ (handleEvent palette st (Event.dropFile (some s))).lit_surface = st.lit_surface
    ∧ (handleEvent palette st (Event.dropFile (some s))).render_surface
        = some { w := s.w, h := s.h, bpp := 8,
                 pixels := quantizePixels palette s.pixels (s.w * s.h) }
    ∧ (handleEvent palette st (Event.dropFile (some s))).render_texture
        = (handleEvent palette st (Event.dropFile (some s))).render_surface := by
  simp [handleEvent, loadNewBMP, renderNewSurface, convertSurfaceToIndex,
    blankIndexSurface, h24]

theorem drop_preserves_settings_displays_quantized_witness :
    goodImage.bpp = 24
    ∧ ((loadNewBMP palC6 (some goodImage) stC6).1 = true
      ∧ (handleEvent palC6 stC6 (Event.dropFile (some goodImage))).darkLevel
          = stC6.darkLevel
      ∧ (handleEvent palC6 stC6 (Event.dropFile (some goodImage))).underWater
          = stC6.underWater
      ∧ (handleEvent palC6 stC6 (Event.dropFile (some goodImage))).lit_surface
          = stC6.lit_surface
      ∧ (handleEvent palC6 stC6 (Event.dropFile (some goodImage))).render_surface
          = some { w := goodImage.w, h := goodImage.h, bpp := 8,
                   pixels := quantizePixels palC6 goodImage.pixels
                               (goodImage.w * goodImage.h) }
      ∧ (handleEvent palC6 stC6 (Event.dropFile (some goodImage))).render_texture
          = (handleEvent palC6 stC6 (Event.dropFile (some goodImage))).render_surface) :=
  ⟨rfl, drop_preserves_settings_displays_quantized palC6 stC6 goodImage rfl⟩

def srcC7 : Surface := ⟨1, 1, 16, [0, 0]⟩

def dstC7 : Surface := ⟨2, 1, 8, [0, 0]⟩

/-- Claim C7 counterexample: a 16-bit source whose pixel count differs from
the destination fails with the format-mismatch error, not the
dimension-mismatch error, refuting the only-if direction of the claim. -/
theorem dimension_error_shadowed_cex :
    srcC7.w * srcC7.h ≠ dstC7.w * dstC7.h
    ∧ convertSurfaceToIndex [] srcC7 dstC7 = .error .formatMismatch
    ∧ ConvertError.formatMismatch ≠ ConvertError.dimensionMismatch :=
  ⟨by decide, rfl, by decide⟩

/-- Claim C7 amended: the checks run in source order, so format mismatch
(source not 24-bit) wins over everything, then the destination-format check,
then the dimension check; with a 24-bit source, an 8-bit destination and
equal pixel counts the conversion succeeds, and it writes output exactly in
the success case. -/
theorem convert_error_characterization (palette : List SDLColor)
    (source dest : Surface) :
    (convertSurfaceToIndex palette source dest = .error .formatMismatch
      ↔ source.bpp ≠ 24)
    ∧ (source.bpp = 24 →
        (convertSurfaceToIndex palette source dest = .error .destFormatMismatch
          ↔ dest.bpp ≠ 8))
    ∧ (source.bpp = 24 → dest.bpp = 8 →
        (convertSurfaceToIndex palette source dest = .error .dimensionMismatch
          ↔ source.w * source.h ≠ dest.w * dest.h))
    ∧ (source.bpp = 24 → dest.bpp = 8 → source.w * source.h = dest.w * dest.h →
        convertSurfaceToIndex palette source dest
          = .ok { dest with
                  pixels := quantizePixels palette source.pixels
                              (source.w * source.h) }) := by
  simp only [convertSurfaceToIndex]
  by_cases h1 : source.bpp ≠ 24
  · rw [if_pos h1]
    refine ⟨iff_of_true rfl h1, ?_, ?_, ?_⟩
    · intro h
      exact absurd h h1
    · intro h _
      exact absurd h h1
    · intro h _ _
      exact absurd h h1
  · rw [if_neg h1]
    by_cases h2 : dest.bpp ≠ 8
    · rw [if_pos h2]
      refine ⟨iff_of_false (by simp) h1, fun _ => iff_of_true rfl h2, ?_, ?_⟩
      · intro _ h8
        exact absurd h8 h2
      · intro _ h8 _
        exact absurd h8 h2
    · rw [if_neg h2]
      by_cases h3 : source.w * source.h ≠ dest.w * dest.h
      · rw [if_pos h3]
        refine ⟨iff_of_false (by simp) h1, ?_, ?_, ?_⟩
        · intro _
          exact iff_of_false (by simp) h2
        · intro _ _
          exact iff_of_true rfl h3
        · intro _ _ heq
          exact absurd heq h3
      · rw [if_neg h3]
        refine ⟨iff_of_false (by simp) h1, ?_, ?_, ?_⟩
        · intro _
          exact iff_of_false (by simp) h2
        · intro _ _
          exact iff_of_false (by simp) h3
        · intro _ _ _
          rfl

theorem convert_error_characterization_witness :
    (⟨1, 1, 24, [0, 0, 0]⟩ : Surface).bpp = 24
    ∧ (⟨1, 1, 8, [0]⟩ : Surface).bpp = 8
    ∧ (⟨1, 1, 24, [0, 0, 0]⟩ : Surface).w * (⟨1, 1, 24, [0, 0, 0]⟩ : Surface).h
        = (⟨1, 1, 8, [0]⟩ : Surface).w * (⟨1, 1, 8, [0]⟩ : Surface).h
    ∧ convertSurfaceToIndex [] ⟨1, 1, 24, [0, 0, 0]⟩ ⟨1, 1, 8, [0]⟩
        = .ok { (⟨1, 1, 8, [0]⟩ : Surface) with
                pixels := quantizePixels [] [0, 0, 0] (1 * 1) } :=
  ⟨rfl, rfl, rfl,
    (convert_error_characterization [] ⟨1, 1, 24, [0, 0, 0]⟩ ⟨1, 1, 8, [0]⟩).2.2.2
      rfl rfl rfl⟩

end VGAColorTest
